import Mathlib

/-!
Shallow embedding of the M:N task-scheduler core (Go-runtime style `proc.go`,
`src/unnamed/part_000`).  Machine `uint32` head/tail counters of the local
ring are abstracted to the ring's content list (head first); the counters are
monotone and only their difference is observed, so no wrap-around matters.
CAS operations are modelled in the sequential (single-threaded) semantics in
which they succeed; `throw` (a runtime abort) is modelled as `none` /
`RunOutcome.processFatal`.  Task and context identities are `Nat`.
-/

/- Status of a task (`g`), from the runtime status constants. -/
inductive Gstatus
  | Gidle
  | Grunnable
  | Grunning
  | Gsyscall
  | Gwaiting
  | Gdead
  deriving DecidableEq, Repr

/- Status of a context (`p`). -/
inductive Pstatus
  | Pidle
  | Prunning
  | Psyscall
  | Pgcstop
  | Pdead
  deriving DecidableEq, Repr

/-- A task (struct `g`): stable id plus scheduler-visible status. -/
structure G where
  id : Nat
  status : Gstatus
  deriving DecidableEq, Repr

/-- A context (struct `p`), restricted to the fields the scheduler core reads:
the local ring (content from head to tail; capacity 256), the `runnext`
priority slot, the status, and the scheduling-tick counter. -/
structure P where
  id : Nat
  status : Pstatus
  runq : List Nat
  runnext : Option Nat
  schedtick : Nat
  deriving DecidableEq, Repr

/-- Global scheduler state (struct `schedt`), restricted to the fields the
claims touch.  `runq` is the global FIFO run queue, head first;
`sched.runqsize` is its length. -/
structure Sched where
  runq : List Nat
  gomaxprocs : Nat
  pidle : List P
  npidle : Nat
  nmspinning : Nat
  stopwait : Int
  gcwaiting : Bool
  deriving DecidableEq, Repr

/-- Capacity of a context's local ring: `len(_p_.runq) = 256`. -/
def runqCap : Nat := 256

/-- The value `freezetheworld` stores in `sched.stopwait` (line 829). -/
def freezeStopWait : Int := 0x7fffffff

/-- Embedding of `pidleget` (line 5250): pop the idle-context list and
decrement `sched.npidle`. -/
def pidleget (s : Sched) : Option P × Sched :=
  match s.pidle with
  | [] => (none, s)
  | pp :: rest => (some pp, { s with pidle := rest, npidle := s.npidle - 1 })

/-- Embedding of `runqputslow` (line 5338): grab half of the full local ring
(`n := (t-h)/2`, which must equal 128, else throw), append the new task, and
put the whole linked batch of `n+1` tasks on the tail of the global run queue
(`globrunqputbatch`).  `none` models the throw.  `randomizeScheduler` is
false, so there is no shuffle. -/
def runqputslow (s : Sched) (pp : P) (gp : Nat) : Option (Sched × P) :=
  let n := pp.runq.length / 2
  if n ≠ runqCap / 2 then none
  else
    let batch := pp.runq.take n ++ [gp]
    some ({ s with runq := s.runq ++ batch }, { pp with runq := pp.runq.drop n })

/-- The ring-insertion part of `runqput` (lines 5318-5332): if the tail would
not collide with the head, store at the tail; otherwise call `runqputslow`.
In the sequential model `runqputslow` fails only by throwing, so the `goto
retry` after a failed head-CAS is unreachable. -/
def runqputRing (s : Sched) (pp : P) (gp : Nat) : Option (Sched × P) :=
  if pp.runq.length < runqCap then
    some (s, { pp with runq := pp.runq ++ [gp] })
  else runqputslow s pp gp

/-- Embedding of `runqput` (line 5294): with `next`, exchange the `runnext`
slot and kick the old occupant (if any) out to the regular ring. -/
def runqput (s : Sched) (pp : P) (gp : Nat) (next : Bool) : Option (Sched × P) :=
  if next then
    match pp.runnext with
    | none => some (s, { pp with runnext := some gp })
    | some old => runqputRing s { pp with runnext := some gp } old
  else runqputRing s pp gp

/-- Embedding of `runqget` (line 5382): first atomically take the `runnext`
slot (returning `inheritTime = true`); otherwise advance the head of the
ring (returning `inheritTime = false`). -/
def runqget (pp : P) : Option Nat × Bool × P :=
  match pp.runnext with
  | some nxt => (some nxt, true, { pp with runnext := none })
  | none =>
    match pp.runq with
    | [] => (none, false, pp)
    | gp :: rest => (some gp, false, { pp with runq := rest })

/-- The per-snapshot grab count of `runqgrab` (lines 5415-5416):
`n := t - h; n = n - n/2`. -/
def runqgrabN (h t : Nat) : Nat := (t - h) - (t - h) / 2

/-- Outcome of one iteration of the `runqgrab` loop. -/
inductive GrabOutcome
  | retry
  | empty
  | grabbed (batch : List Nat) (victim : P)
  deriving DecidableEq, Repr

/-- One iteration of the `runqgrab` loop (lines 5412-5460) at an observed
head/tail snapshot `(h, t)` of the victim.  `retry` covers both the
inconsistent-snapshot branch (`n > len(runq)/2`, line 5450) and a failed
head-CAS; `empty` is `return 0`.  When `n = 0` and `stealRunNextG` is set,
the victim's `runnext` slot is taken instead (after the 3 microsecond
back-off, which has no effect in the sequential model). -/
def runqgrabStep (pp : P) (h t : Nat) (stealRunNextG : Bool) : GrabOutcome :=
  let n := runqgrabN h t
  if n = 0 then
    if stealRunNextG then
      match pp.runnext with
      | some nxt => GrabOutcome.grabbed [nxt] { pp with runnext := none }
      | none => GrabOutcome.empty
    else GrabOutcome.empty
  else if runqCap / 2 < n then GrabOutcome.retry
  else GrabOutcome.grabbed (pp.runq.take n) { pp with runq := pp.runq.drop n }

/-- Embedding of `runqgrab` (line 5411) in the sequential model: the loads of
head and tail observe the victim's true state, and the committing head-CAS
succeeds, so a single iteration decides. -/
def runqgrab (pp : P) (stealRunNextG : Bool) : GrabOutcome :=
  runqgrabStep pp 0 pp.runq.length stealRunNextG

/-- Embedding of `runqsteal` (line 5467): grab a batch at the thief's tail,
hand the last grabbed element to the caller, and advance the thief's tail
over the remaining `n-1` (throwing — `none` — on thief-ring overflow). -/
def runqsteal (pp p2 : P) (stealRunNextG : Bool) : Option (Nat × P × P) :=
  match runqgrab p2 stealRunNextG with
  | GrabOutcome.retry => none
  | GrabOutcome.empty => none
  | GrabOutcome.grabbed batch p2' =>
    match batch.getLast? with
    | none => none
    | some gp =>
      let n := batch.length - 1
      if n = 0 then some (gp, pp, p2')
      else if runqCap ≤ pp.runq.length + n then none
      else some (gp, { pp with runq := pp.runq ++ batch.dropLast }, p2')

/-- The batch-size computation of `globrunqget` (lines 5191-5202):
`n := runqsize/gomaxprocs + 1`, capped at `runqsize`, at `max` when
`max > 0`, and at `len(_p_.runq)/2 = 128`. -/
def globrunqgetBatchSize (s : Sched) (mx : Int) : Nat :=
  let n0 := s.runq.length / s.gomaxprocs + 1
  let n1 := if n0 > s.runq.length then s.runq.length else n0
  let n2 := if 0 < mx ∧ (n1 : Int) > mx then mx.toNat else n1
  if n2 > runqCap / 2 then runqCap / 2 else n2

/-- The transfer loop of `globrunqget` (lines 5215-5219): pop `n` tasks off
the head of the global queue and `runqput` each into the calling context's
local ring.  `none` models a throw inside `runqput` or following a nil head
pointer of an exhausted queue. -/
def globrunqgetLoop : Nat → Sched → P → Option (Sched × P)
  | 0, s, pp => some (s, pp)
  | n + 1, s, pp =>
    match s.runq with
    | [] => none
    | gp1 :: rest =>
      match runqput { s with runq := rest } pp gp1 false with
      | none => none
      | some (s', pp') => globrunqgetLoop n s' pp'

/-- Embedding of `globrunqget` (line 5184): on a non-empty global queue,
compute the batch size `n`, return the head task, and transfer the next
`n - 1` tasks into the caller's local ring. -/
def globrunqget (s : Sched) (pp : P) (mx : Int) : Option (Option Nat × Sched × P) :=
  if s.runq.length = 0 then some (none, s, pp)
  else
    let n := globrunqgetBatchSize s mx
    match s.runq with
    | [] => none
    | gp :: rest =>
      match globrunqgetLoop (n - 1) { s with runq := rest } pp with
      | none => none
      | some (s', pp') => some (some gp, s', pp')

/-- Where the dispatch loop (`schedule`) found its task. -/
inductive SchedPick
  | fromGlobal (gp : Nat)
  | fromLocal (gp : Nat) (inheritTime : Bool)
  | viaFindrunnable
  deriving DecidableEq, Repr

/-- Embedding of the task-acquisition sequence of `schedule`
(lines 2899-2921), with tracing and GC-mark dispatch disabled: every 61st
tick with a non-empty global queue, take from the global queue with
`max = 1`; otherwise consult the local ring (`runqget`); otherwise fall
through to `findrunnable`. -/
def scheduleGetG (s : Sched) (pp : P) : Option (SchedPick × Sched × P) :=
  let step1 : Option (Option Nat × Sched × P) :=
    if pp.schedtick % 61 = 0 ∧ s.runq.length > 0 then globrunqget s pp 1
    else some (none, s, pp)
  match step1 with
  | none => none
  | some (some gp, s', pp') => some (SchedPick.fromGlobal gp, s', pp')
  | some (none, s', pp') =>
    match runqget pp' with
    | (some gp, inheritTime, pp'') => some (SchedPick.fromLocal gp inheritTime, s', pp'')
    | (none, _, _) => some (SchedPick.viaFindrunnable, s', pp')

/-- The round indices of the stealing phase of `findrunnable`
(line 2592): `for i := 0; i < 4; i++`. -/
def findrunnableStealRounds : List Nat := [0, 1, 2, 3]

/-- The per-round `next`-slot permission of `findrunnable` (line 2597):
`stealRunNextG := i > 2`. -/
def findrunnableStealRunNextG (i : Nat) : Bool := decide (2 < i)

/-- The stealing rounds of `findrunnable` (lines 2592-2603) specialised to a
single victim: in round `i` attempt `runqsteal` with the `next`-slot
permission `i > 2`; the first success returns the round index, the stolen
task, and the updated thief and victim. -/
def stealRoundsFrom : List Nat → P → P → Option (Nat × Nat × P × P)
  | [], _, _ => none
  | i :: rest, pp, victim =>
    match runqsteal pp victim (findrunnableStealRunNextG i) with
    | some (gp, pp', victim') => some (i, gp, pp', victim')
    | none => stealRoundsFrom rest pp victim

/-- The full four-round steal phase over one victim. -/
def findrunnableSteal (pp victim : P) : Option (Nat × Nat × P × P) :=
  stealRoundsFrom findrunnableStealRounds pp victim

/-- A worker started or woken by `startm`, with the spinning flag it
inherits. -/
inductive Event
  | startmEv (pid : Nat) (spinning : Bool)
  deriving DecidableEq, Repr

/-- Embedding of `startm` (line 2238) called with `_p_ == nil`: take an idle
context (undoing the `nmspinning` increment and giving up when there is
none), then wake an idle worker or create a new one, which inherits the
`spinning` flag and the context. -/
def startm (s : Sched) (pArg : Option P) (spinning : Bool) : Sched × List Event :=
  match pArg with
  | none =>
    match pidleget s with
    | (none, s') =>
      (if spinning then { s' with nmspinning := s'.nmspinning - 1 } else s', [])
    | (some pp, s') => (s', [Event.startmEv pp.id spinning])
  | some pp => (s, [Event.startmEv pp.id spinning])

/-- Embedding of `wakep` (line 2345): compare-and-swap `sched.nmspinning`
from 0 to 1; on failure do nothing, on success start one spinning worker. -/
def wakep (s : Sched) : Sched × List Event :=
  if s.nmspinning = 0 then startm { s with nmspinning := 1 } none true
  else (s, [])

/-- Embedding of `ready` (line 746): require status `Gwaiting` (else throw),
transition to `Grunnable`, push onto the current worker's context, and if
`npidle != 0 && nmspinning == 0` run `wakep`. -/
def ready (s : Sched) (pp : P) (gp : G) (next : Bool) :
    Option (Sched × P × G × List Event) :=
  if gp.status ≠ Gstatus.Gwaiting then none
  else
    let gp' : G := { gp with status := Gstatus.Grunnable }
    match runqput s pp gp.id next with
    | none => none
    | some (s', pp') =>
      if s'.npidle ≠ 0 ∧ s'.nmspinning = 0 then
        let r := wakep s'
        some (r.1, pp', gp', r.2)
      else some (s', pp', gp', [])

/-- A worker (struct `m`), restricted to the fields of the syscall-exit
path: the attached context, the lock-binding flag, and whether the worker
has parked itself (`stopm` / `stoplockedm`). -/
structure M where
  p : Option P
  lockedg : Bool
  parked : Bool
  deriving DecidableEq, Repr

/-- Which branch of `exitsyscallfast` succeeded. -/
inductive FastKind
  | reacquired
  | fromPidle
  deriving DecidableEq, Repr

/-- The idle-context part of the fast path, `exitsyscallfast_pidle`
(line 3556) guarded by `sched.pidle != 0` (line 3505): take an idle context
and `acquirep` it (status becomes `Prunning`). -/
def exitsyscallfastPidle (s : Sched) (m : M) : Option FastKind × Sched × M :=
  if s.pidle ≠ [] then
    match pidleget s with
    | (some pp, s') =>
      (some FastKind.fromPidle, s',
        { m with p := some { pp with status := Pstatus.Prunning } })
    | (none, s') => (none, s', m)
  else (none, s, m)

/-- Embedding of `exitsyscallfast` (line 3482): unless the world is frozen,
first try to CAS the original context from `Psyscall` back to `Prunning`
(line 3494); failing that, drop the context pointer and try the idle-context
list (line 3505). -/
def exitsyscallfast (s : Sched) (m : M) : Option FastKind × Sched × M :=
  if s.stopwait = freezeStopWait then (none, s, { m with p := none })
  else
    match m.p with
    | some pp =>
      if pp.status = Pstatus.Psyscall then
        (some FastKind.reacquired, s,
          { m with p := some { pp with status := Pstatus.Prunning } })
      else exitsyscallfastPidle s { m with p := none }
    | none => exitsyscallfastPidle s { m with p := none }

/-- Which path `exitsyscall` took to completion. -/
inductive ExitPath
  | fastReacquired
  | fastPidle
  | slowExecute
  | slowGlobalPark
  deriving DecidableEq, Repr

/-- Embedding of `exitsyscall0` (line 3575), the slow path on the scheduler
stack: transition the task `Gsyscall` to `Grunnable`, drop it from the
worker, and either acquire an idle context and `execute` the task, or put it
on the global run queue (`globrunqput`) and park the worker (`stopm` /
`stoplockedm`). -/
def exitsyscall0 (s : Sched) (m : M) (gp : G) : Option (Sched × M × G × ExitPath) :=
  if gp.status ≠ Gstatus.Gsyscall then none
  else
    let gp' : G := { gp with status := Gstatus.Grunnable }
    match pidleget s with
    | (none, s') =>
      some ({ s' with runq := s'.runq ++ [gp.id] },
        { m with parked := true }, gp', ExitPath.slowGlobalPark)
    | (some pp, s') =>
      some (s', { m with p := some { pp with status := Pstatus.Prunning } },
        { gp' with status := Gstatus.Grunning }, ExitPath.slowExecute)

/-- Embedding of `exitsyscall` (lines 3409-3462): try `exitsyscallfast`; on
success CAS the task `Gsyscall` to `Grunning` and resume; otherwise `mcall`
into `exitsyscall0` on the scheduler stack. -/
def exitsyscall (s : Sched) (m : M) (gp : G) : Option (Sched × M × G × ExitPath) :=
  if gp.status ≠ Gstatus.Gsyscall then none
  else
    match exitsyscallfast s m with
    | (some fk, s', m') =>
      some (s', m', { gp with status := Gstatus.Grunning },
        match fk with
        | FastKind.reacquired => ExitPath.fastReacquired
        | FastKind.fromPidle => ExitPath.fastPidle)
    | (none, s', m') => exitsyscall0 s' m' gp

/-- A context as seen by the stop-the-world machinery: its status plus the
preemption-request flag set by `preemptone` (`gp.preempt = true`). -/
structure StwP where
  status : Pstatus
  preempt : Bool
  deriving DecidableEq, Repr

/-- The scheduler state operated on by `stopTheWorldWithSema`:
`sched.gcwaiting`, `sched.stopwait`, the statuses of all contexts (`allp`),
the idle-context list (as indices into `allp`), and a counter of the
`preemptall` calls that the stopper has issued. -/
structure StwS where
  gcwaiting : Bool
  stopwait : Int
  allp : List StwP
  pidle : List Nat
  preemptallCalls : Nat
  deriving DecidableEq, Repr

/-- Embedding of `preemptall` (line 4978): request preemption of every
context in `Prunning` (best effort; `preemptone` sets the task's preempt
flag and poisons its stack guard).  The call counter records the
invocation. -/
def preemptall (s : StwS) : StwS :=
  { s with
    allp := s.allp.map fun pp =>
      if pp.status = Pstatus.Prunning then { pp with preempt := true } else pp,
    preemptallCalls := s.preemptallCalls + 1 }

/-- Set the status of context `i` in `allp`. -/
def stwSetStatus (allp : List StwP) (i : Nat) (st : Pstatus) : List StwP :=
  allp.modify (fun pp => { pp with status := st }) i

/-- The `Psyscall` retake loop of `stopTheWorldWithSema` (lines 1213-1223):
CAS every context in `Psyscall` to `Pgcstop`, decrementing `stopwait` for
each. -/
def stwRetakeSyscall (s : StwS) : StwS :=
  { s with
    allp := s.allp.map fun pp =>
      if pp.status = Pstatus.Psyscall then { pp with status := Pstatus.Pgcstop } else pp,
    stopwait := s.stopwait -
      Int.ofNat (s.allp.countP fun pp => pp.status = Pstatus.Psyscall) }

/-- The idle-context drain of `stopTheWorldWithSema` (lines 1225-1232):
`pidleget` until empty, setting each drained context to `Pgcstop` and
decrementing `stopwait`. -/
def stwStopIdleGo : List Nat → List StwP → Int → List StwP × Int
  | [], allp, sw => (allp, sw)
  | i :: rest, allp, sw => stwStopIdleGo rest (stwSetStatus allp i Pstatus.Pgcstop) (sw - 1)

/-- Drain the idle-context list to `Pgcstop`. -/
def stwStopIdle (s : StwS) : StwS :=
  let r := stwStopIdleGo s.pidle s.allp s.stopwait
  { s with allp := r.1, stopwait := r.2, pidle := [] }

/-- What the other workers do during one 100 microsecond wait interval: each
index in the list is a context whose worker reaches the dispatch loop, sees
`gcwaiting`, and voluntarily stops (`gcstopm`, line 2417: status becomes
`Pgcstop`, `stopwait` is decremented, and the last one wakes the stop
note). -/
def stwVolunteer (idxs : List Nat) (allp : List StwP) (sw : Int) : List StwP × Int :=
  match idxs with
  | [] => (allp, sw)
  | i :: rest =>
    if (allp.get? i).any (fun pp => pp.status = Pstatus.Prunning) then
      stwVolunteer rest (stwSetStatus allp i Pstatus.Pgcstop) (sw - 1)
    else stwVolunteer rest allp sw

/-- The wait loop of `stopTheWorldWithSema` (lines 1237-1246): sleep on the
stop note for 100 microseconds; the note is woken exactly when `stopwait`
reaches zero (by the last `gcstopm`), in which case the loop breaks;
otherwise `preemptall` again and repeat.  `vol j` lists the contexts whose
workers voluntarily stop during interval `j`; `none` models a loop that has
not terminated within `fuel` intervals.  The returned `Nat` counts the
re-preempt iterations. -/
def stwWaitLoop : Nat → (Nat → List Nat) → StwS → Option (StwS × Nat)
  | 0, _, _ => none
  | fuel + 1, vol, s =>
    let r := stwVolunteer (vol 0) s.allp s.stopwait
    let s' : StwS := { s with allp := r.1, stopwait := r.2 }
    if s'.stopwait = 0 then some (s', 0)
    else
      match stwWaitLoop fuel (fun j => vol (j + 1)) (preemptall s') with
      | none => none
      | some (s'', k) => some (s'', k + 1)

/-- The sanity checks of `stopTheWorldWithSema` (lines 1249-1258), run on
the state the wait produced: throw (`none`) unless `stopwait == 0` and
every context is in `Pgcstop`. -/
def stwSanity : Option (StwS × Nat) → Option (StwS × Nat)
  | none => none
  | some (s6, k) =>
    if s6.stopwait ≠ 0 then none
    else if s6.allp.any (fun pp => pp.status ≠ Pstatus.Pgcstop) then none
    else some (s6, k)

/-- Embedding of `stopTheWorldWithSema` (line 1192): set
`stopwait = gomaxprocs` and `gcwaiting`, preempt everything running, stop
the caller's own context `cur`, retake `Psyscall` contexts, drain the idle
list, wait (re-preempting each 100 microsecond interval) until
`stopwait == 0`, and finish with the sanity checks. -/
def stopTheWorldWithSema (fuel : Nat) (vol : Nat → List Nat) (s : StwS) (cur : Nat) :
    Option (StwS × Nat) :=
  let s1 : StwS := { s with stopwait := Int.ofNat s.allp.length, gcwaiting := true }
  let s2 := preemptall s1
  let s3 : StwS := { s2 with allp := stwSetStatus s2.allp cur Pstatus.Pgcstop,
                             stopwait := s2.stopwait - 1 }
  let s4 := stwRetakeSyscall s3
  let s5 := stwStopIdle s4
  stwSanity (if s5.stopwait > 0 then stwWaitLoop fuel vol s5 else some (s5, 0))

/-- Modelled from the spec: `_StackMin`, the minimum task stack size, is
defined in the stack-management file, which is not part of `src/`; the spec
fixes the minimum stack at 2 KiB ("stack allocated ... small growable
stack", creation comments `malg(_StackMin)` with a 2 KiB stack). -/
def stackMin : Nat := 2048

/-- Modelled from the spec: `sys.RegSize` comes from `runtime/internal/sys`,
not part of `src/`; it is the 8-byte register size of the 64-bit targets the
spec describes. -/
def regSize : Nat := 8

/-- Outcome of a scheduler entry point that may `throw`.  Modelled from the
spec: the `throw` primitive itself is not in `src/`; per the spec's error
taxonomy (section 7) a runtime throw is in the "Fatal (abort process)"
class — it terminates the entire process, scheduler and all tasks
included, and is not surfaced to the calling task. -/
inductive RunOutcome
  | ok (s : Sched) (pp : P)
  | processFatal (msg : String)
  deriving DecidableEq, Repr

/-- Embedding of the control skeleton of `newproc1` (line 3750): throw on a
nil task function; round the argument size up to 8 bytes (`(siz + 7) &^ 7`)
and throw `"newproc: function arguments too large for new goroutine"` when
it reaches `_StackMin - 4*sys.RegSize - sys.RegSize` (line 3769); otherwise
allocate the task, mark it `Grunnable`, and `runqput` it with
`next = true`. -/
def newproc1 (s : Sched) (pp : P) (fnIsNil : Bool) (narg : Nat) (newgId : Nat) :
    RunOutcome :=
  if fnIsNil then RunOutcome.processFatal "go of nil func value"
  else
    let siz := (narg + 7) / 8 * 8
    if stackMin - 4 * regSize - regSize ≤ siz then
      RunOutcome.processFatal "newproc: function arguments too large for new goroutine"
    else
      match runqput s pp newgId true with
      | none => RunOutcome.processFatal "runqputslow: queue is not full"
      | some (s', pp') => RunOutcome.ok s' pp'

/-- The batch size exactly as claim C5 words it: `n = size / context_count
+ 1`, capped at `max` when `max` is positive and at half the ring capacity —
with no cap at the queue size.  Stated from the claim, for comparison with
`globrunqgetBatchSize`. -/
def claimBatchSizeC5 (qlen procs : Nat) (mx : Int) : Nat :=
  let n0 := qlen / procs + 1
  let n1 := if 0 < mx ∧ (n0 : Int) > mx then mx.toNat else n0
  if n1 > runqCap / 2 then runqCap / 2 else n1

/-- A single-threaded sequence of local-queue pushes: apply `runqput` for
each `(task, favor_next)` pair in order. -/
def runqputSeq (s : Sched) (pp : P) : List (Nat × Bool) → Option (Sched × P)
  | [] => some (s, pp)
  | op :: rest =>
    match runqput s pp op.1 op.2 with
    | none => none
    | some (s', pp') => runqputSeq s' pp' rest

/-- The last task of the sequence pushed with `favor_next = true`, if any
(starting from the slot's prior content). -/
def lastFavored (init : Option Nat) (ops : List (Nat × Bool)) : Option Nat :=
  ops.foldl (fun a op => if op.2 then some op.1 else a) init

/-- A wait interval in which no worker voluntarily stops. -/
def noVolunteers : Nat → List Nat := fun _ => []

/-- One dispatch cycle of the self-respawning-pair scenario: the dispatch
loop picks a task (`scheduleGetG`), `execute` (lines 2454-2467) increments
the context's scheduling tick only when the time slice was not inherited,
and the running task immediately respawns its partner, which `newproc1`
pushes with `next = true` (line 3874). -/
def respawnCycle (partner : Nat) (s : Sched) (pp : P) : Option (Sched × P) :=
  match scheduleGetG s pp with
  | some (SchedPick.fromLocal _ inheritTime, s1, pp1) =>
    let pp2 := if inheritTime then pp1 else { pp1 with schedtick := pp1.schedtick + 1 }
    match runqput s1 pp2 partner true with
    | some (s2, pp3) => some (s2, pp3)
    | none => none
  | _ => none

/-- Iterated respawn cycles: the task popped in each cycle respawns the
partner of the previous one, so the spawned ids alternate. -/
def respawnCycles : Nat → Nat → Nat → Sched → P → Option (Sched × P)
  | 0, _, _, s, pp => some (s, pp)
  | n + 1, a, b, s, pp =>
    match respawnCycle a s pp with
    | some (s1, pp1) => respawnCycles n b a s1 pp1
    | none => none

section Helpers

/-- A put with `next = false` never touches the `runnext` slot. -/
theorem runqput_false_runnext (s : Sched) (pp : P) (g : Nat) (s' : Sched) (pp' : P)
    (h : runqput s pp g false = some (s', pp')) : pp'.runnext = pp.runnext := by
  simp only [runqput, runqputRing, runqputslow, Bool.false_eq_true, if_false] at h
  split at h
  · rw [Option.some.injEq, Prod.mk.injEq] at h
    rw [← h.2]
  · split at h
    · exact absurd h (by simp)
    · rw [Option.some.injEq, Prod.mk.injEq] at h
      rw [← h.2]

end Helpers

/-- C9: pushing onto a context whose ring is full (tail would collide with
head at 256 elements) takes the overflow path: exactly half of the ring
(128 elements, from the head) together with the newly pushed task — a chain
of 129 — is appended to the global run queue, and the push completes with
the ring halved and without retrying the ring. -/
theorem C9_runqput_full_overflow (s : Sched) (pp : P) (gp : Nat)
    (hfull : pp.runq.length = runqCap) :
    runqput s pp gp false =
      some ({ s with runq := s.runq ++ (pp.runq.take 128 ++ [gp]) },
            { pp with runq := pp.runq.drop 128 }) ∧
    (pp.runq.take 128 ++ [gp]).length = 129 ∧
    (pp.runq.drop 128).length = 128 ∧
    runqCap / 2 = 128 := by
  have h2 : pp.runq.length / 2 = 128 := by rw [hfull]; rfl
  refine ⟨?_, ?_, ?_, rfl⟩
  · simp [runqput, runqputRing, runqputslow, hfull, h2, runqCap]
  · simp [List.length_take]
    omega
  · simp [List.length_drop, hfull, runqCap]

/-- Witness for C9 at a concrete full ring. -/
theorem C9_runqput_full_overflow_witness :
    (List.replicate 256 7).length = runqCap ∧
    (runqput ⟨[], 1, [], 0, 0, 0, false⟩ ⟨0, Pstatus.Prunning, List.replicate 256 7, none, 0⟩ 9 false =
      some ({ (⟨[], 1, [], 0, 0, 0, false⟩ : Sched) with
                runq := ([] : List Nat) ++ ((List.replicate 256 7).take 128 ++ [9]) },
            { (⟨0, Pstatus.Prunning, List.replicate 256 7, none, 0⟩ : P) with
                runq := (List.replicate 256 7).drop 128 }) ∧
     ((List.replicate 256 7).take 128 ++ [9]).length = 129 ∧
     ((List.replicate 256 7).drop 128).length = 128 ∧
     runqCap / 2 = 128) :=
  ⟨by rw [List.length_replicate]; rfl,
   C9_runqput_full_overflow ⟨[], 1, [], 0, 0, 0, false⟩
     ⟨0, Pstatus.Prunning, List.replicate 256 7, none, 0⟩ 9 (by rw [List.length_replicate]; rfl)⟩

/-- A put with `next = true` always leaves the new task in the `runnext`
slot. -/
theorem runqput_true_runnext (s : Sched) (pp : P) (g : Nat) (s' : Sched) (pp' : P)
    (h : runqput s pp g true = some (s', pp')) : pp'.runnext = some g := by
  simp only [runqput, if_true] at h
  split at h
  · rw [Option.some.injEq, Prod.mk.injEq] at h
    rw [← h.2]
  · simp only [runqputRing, runqputslow] at h
    split at h
    · rw [Option.some.injEq, Prod.mk.injEq] at h
      rw [← h.2]
    · split at h
      · exact absurd h (by simp)
      · rw [Option.some.injEq, Prod.mk.injEq] at h
        rw [← h.2]

/-- After any single-threaded push sequence, the `runnext` slot holds the
last task pushed with `favor_next = true` (or the prior occupant when the
sequence favours none). -/
theorem runqputSeq_runnext (ops : List (Nat × Bool)) (s : Sched) (pp : P)
    (s' : Sched) (pp' : P) (h : runqputSeq s pp ops = some (s', pp')) :
    pp'.runnext = lastFavored pp.runnext ops := by
  induction ops generalizing s pp with
  | nil =>
    simp only [runqputSeq, Option.some.injEq, Prod.mk.injEq] at h
    rw [lastFavored, List.foldl_nil, ← h.2]
  | cons op rest ih =>
    simp only [runqputSeq] at h
    cases hop : runqput s pp op.1 op.2 with
    | none => rw [hop] at h; exact absurd h (by simp)
    | some r =>
      rw [hop] at h
      have hrec := ih r.1 r.2 h
      rw [lastFavored, List.foldl_cons]
      cases hb : op.2 with
      | false =>
        rw [hb] at hop
        rw [hrec, lastFavored, runqput_false_runnext s pp op.1 r.1 r.2 hop]
        simp
      | true =>
        rw [hb] at hop
        rw [hrec, lastFavored, runqput_true_runnext s pp op.1 r.1 r.2 hop]
        simp

/-- C8: in any single-threaded sequence of local-queue operations, `runqget`
first takes the `runnext` slot, so it returns the last task pushed with
`favor_next = true` — before any ring element — with
`inherited_timeslice = true`; a pop that instead takes from the ring
returns `inherited_timeslice = false`. -/
theorem C8_runqget_next_first (s : Sched) (pp : P) (ops : List (Nat × Bool))
    (s' : Sched) (pp' : P) (g : Nat)
    (hrun : runqputSeq s pp ops = some (s', pp'))
    (hlast : lastFavored pp.runnext ops = some g) :
    runqget pp' = (some g, true, { pp' with runnext := none }) ∧
    (∀ q : P, q.runnext = none → ∀ x l, q.runq = x :: l →
      runqget q = (some x, false, { q with runq := l })) := by
  constructor
  · have hnx : pp'.runnext = some g := by
      rw [runqputSeq_runnext ops s pp s' pp' hrun, hlast]
    rw [runqget, hnx]
  · intro q hq x l hxl
    rw [runqget, hq, hxl]

/-- Witness for C8: push 1 into the ring, favour 2, then favour 3 and push 4
into the ring; the pop returns 3 from the `next` slot with the inherited
time slice, and a ring pop does not inherit. -/
theorem C8_runqget_next_first_witness :
    (runqputSeq ⟨[], 1, [], 0, 0, 0, false⟩ ⟨0, Pstatus.Prunning, [], none, 0⟩
        [(1, false), (2, true), (3, true), (4, false)] =
      some (⟨[], 1, [], 0, 0, 0, false⟩, ⟨0, Pstatus.Prunning, [1, 2, 4], some 3, 0⟩)) ∧
    (lastFavored (none : Option Nat) [(1, false), (2, true), (3, true), (4, false)] = some 3) ∧
    (runqget ⟨0, Pstatus.Prunning, [1, 2, 4], some 3, 0⟩ =
      (some 3, true, { (⟨0, Pstatus.Prunning, [1, 2, 4], some 3, 0⟩ : P) with runnext := none }) ∧
    (∀ q : P, q.runnext = none → ∀ x l, q.runq = x :: l →
      runqget q = (some x, false, { q with runq := l }))) :=
  ⟨by decide, by decide,
   C8_runqget_next_first ⟨[], 1, [], 0, 0, 0, false⟩ ⟨0, Pstatus.Prunning, [], none, 0⟩
     [(1, false), (2, true), (3, true), (4, false)]
     ⟨[], 1, [], 0, 0, 0, false⟩ ⟨0, Pstatus.Prunning, [1, 2, 4], some 3, 0⟩ 3
     (by decide) (by decide)⟩

/-- C7 counterexample: `stealRunNextG := i > 2` is false in the third of the
four rounds (`i = 2`), so a victim whose only work sits in the `next` slot
is not stolen from during the first three rounds — the claim that the
`next`-slot steal is permitted in both round 3 and round 4 fails. -/
theorem C7_counterexample :
    findrunnableStealRunNextG 2 = false ∧
    stealRoundsFrom [0, 1, 2] ⟨0, Pstatus.Pidle, [], none, 0⟩
        ⟨1, Pstatus.Pidle, [], some 7, 0⟩ = none ∧
    (findrunnableStealRounds.filter (fun i => findrunnableStealRunNextG i)).length = 1 := by
  decide

/-- C7 (amended): the stealing phase makes 4 rounds, and stealing the
victim's `next` slot is permitted only in the final round (`i = 3`, the
fourth); a victim holding only a `next`-slot task is robbed exactly in that
round. -/
theorem C7_steal_rounds (pp victim : P) (g : Nat)
    (hring : victim.runq = [])
    (hnext : victim.runnext = some g) :
    findrunnableStealRounds.length = 4 ∧
    (∀ i ∈ findrunnableStealRounds, findrunnableStealRunNextG i = decide (i = 3)) ∧
    findrunnableSteal pp victim = some (3, g, pp, { victim with runnext := none }) := by
  refine ⟨rfl, by decide, ?_⟩
  simp [findrunnableSteal, findrunnableStealRounds, stealRoundsFrom, runqsteal,
        runqgrab, runqgrabStep, runqgrabN, findrunnableStealRunNextG, hring, hnext]

/-- Witness for C7 at a concrete victim. -/
theorem C7_steal_rounds_witness :
    ((⟨1, Pstatus.Pidle, [], some 7, 0⟩ : P).runq = [] ∧
     (⟨1, Pstatus.Pidle, [], some 7, 0⟩ : P).runnext = some 7) ∧
    (findrunnableStealRounds.length = 4 ∧
     (∀ i ∈ findrunnableStealRounds, findrunnableStealRunNextG i = decide (i = 3)) ∧
     findrunnableSteal ⟨0, Pstatus.Pidle, [], none, 0⟩ ⟨1, Pstatus.Pidle, [], some 7, 0⟩ =
       some (3, 7, ⟨0, Pstatus.Pidle, [], none, 0⟩,
         { (⟨1, Pstatus.Pidle, [], some 7, 0⟩ : P) with runnext := none })) :=
  ⟨⟨rfl, rfl⟩,
   C7_steal_rounds ⟨0, Pstatus.Pidle, [], none, 0⟩ ⟨1, Pstatus.Pidle, [], some 7, 0⟩ 7 rfl rfl⟩

/-- C10 counterexample: creating a task with 2008 argument bytes (the fixed
limit `_StackMin - 4*RegSize - RegSize = 2008`) hits `throw`, a runtime
abort that takes down the whole process — scheduler included — rather than
a failure surfaced only to the caller's task. -/
theorem C10_counterexample :
    newproc1 ⟨[], 1, [], 0, 0, 0, false⟩ ⟨0, Pstatus.Prunning, [], none, 0⟩ false 2008 99 =
      RunOutcome.processFatal "newproc: function arguments too large for new goroutine" := by
  rfl

/-- C10 (amended): task creation with argument bytes at or above the fixed
limit derived from the minimum stack size throws
`"newproc: function arguments too large for new goroutine"`, a fatal
runtime abort of the entire process (not merely of the caller's task);
below the limit, creation succeeds when the ring has room. -/
theorem C10_newproc_oversized_fatal (s : Sched) (pp : P) (narg gid : Nat)
    (hbig : stackMin - 4 * regSize - regSize ≤ (narg + 7) / 8 * 8) :
    newproc1 s pp false narg gid =
      RunOutcome.processFatal "newproc: function arguments too large for new goroutine" := by
  simp [newproc1, hbig]

/-- Witness for C10 at the limit. -/
theorem C10_newproc_oversized_fatal_witness :
    stackMin - 4 * regSize - regSize ≤ (2008 + 7) / 8 * 8 ∧
    newproc1 ⟨[9], 2, [], 1, 0, 0, false⟩ ⟨3, Pstatus.Prunning, [4], some 5, 6⟩ false 2008 99 =
      RunOutcome.processFatal "newproc: function arguments too large for new goroutine" :=
  ⟨by decide,
   C10_newproc_oversized_fatal ⟨[9], 2, [], 1, 0, 0, false⟩
     ⟨3, Pstatus.Prunning, [4], some 5, 6⟩ 2008 99 (by decide)⟩

/-- C4: a steal whose snapshot is consistent with `k = tail - head > 0` ring
elements grabs exactly `k - k/2 = ⌈k/2⌉` elements from the victim's head
into the thief's ring, leaves the victim floor-halved, and hands one of the
grabbed elements (the last) to the caller; any snapshot whose computed
count exceeds half the ring capacity is retried. -/
theorem C4_runqsteal_half (pp p2 : P) (steal : Bool)
    (hne : p2.runq ≠ [])
    (hvcap : p2.runq.length ≤ runqCap)
    (hcap : pp.runq.length + (p2.runq.length - p2.runq.length / 2) ≤ runqCap) :
    ∃ gp pp' p2',
      runqsteal pp p2 steal = some (gp, pp', p2') ∧
      p2.runq.length - p2.runq.length / 2 = (p2.runq.length + 1) / 2 ∧
      p2'.runq = p2.runq.drop (p2.runq.length - p2.runq.length / 2) ∧
      p2'.runq.length = p2.runq.length / 2 ∧
      pp'.runq = pp.runq ++ (p2.runq.take (p2.runq.length - p2.runq.length / 2)).dropLast ∧
      (p2.runq.take (p2.runq.length - p2.runq.length / 2)).getLast? = some gp ∧
      (∀ h t, runqCap / 2 < runqgrabN h t → runqgrabStep p2 h t steal = GrabOutcome.retry) := by
  have hvcap' : p2.runq.length ≤ 256 := hvcap
  have hcap' : pp.runq.length + (p2.runq.length - p2.runq.length / 2) ≤ 256 := hcap
  have hk1 : 1 ≤ p2.runq.length := List.length_pos.mpr hne
  have hn1 : 1 ≤ p2.runq.length - p2.runq.length / 2 := by omega
  have hretry : ∀ h t, runqCap / 2 < runqgrabN h t →
      runqgrabStep p2 h t steal = GrabOutcome.retry := by
    intro h t hht
    have hht' : 128 < runqgrabN h t := hht
    simp only [runqgrabStep]
    rw [if_neg (by omega), if_pos hht]
  have hgN : runqgrabN 0 p2.runq.length = p2.runq.length - p2.runq.length / 2 := by
    simp [runqgrabN]
  have hgrab : runqgrab p2 steal =
      GrabOutcome.grabbed (p2.runq.take (p2.runq.length - p2.runq.length / 2))
        { p2 with runq := p2.runq.drop (p2.runq.length - p2.runq.length / 2) } := by
    simp only [runqgrab, runqgrabStep, hgN]
    rw [if_neg (by omega), if_neg (show ¬ (runqCap / 2 < p2.runq.length - p2.runq.length / 2)
      from by simp only [runqCap]; omega)]
  set batch := p2.runq.take (p2.runq.length - p2.runq.length / 2) with hbatch
  have hblen : batch.length = p2.runq.length - p2.runq.length / 2 := by
    rw [hbatch, List.length_take]; omega
  have hbne : batch ≠ [] := by
    intro h0
    rw [h0] at hblen
    simp at hblen
    omega
  obtain ⟨gp, hgl⟩ : ∃ gp, batch.getLast? = some gp :=
    Option.isSome_iff_exists.mp (List.getLast?_isSome.mpr hbne)
  by_cases hone : batch.length - 1 = 0
  · have hb1 : batch.length = 1 := by omega
    obtain ⟨a, ha⟩ := List.length_eq_one.mp hb1
    refine ⟨gp, pp, { p2 with runq := p2.runq.drop (p2.runq.length - p2.runq.length / 2) },
      ?_, by omega, rfl, by simp only [List.length_drop]; omega, ?_, hgl, hretry⟩
    · simp [runqsteal, hgrab, hgl, hone]
    · rw [ha]
      simp
  · refine ⟨gp, { pp with runq := pp.runq ++ batch.dropLast },
      { p2 with runq := p2.runq.drop (p2.runq.length - p2.runq.length / 2) },
      ?_, by omega, rfl, by simp only [List.length_drop]; omega, rfl, hgl, hretry⟩
    have hover : ¬ (runqCap ≤ pp.runq.length + (batch.length - 1)) := by
      simp only [runqCap]
      omega
    simp only [runqsteal, hgrab, hgl, if_neg hone, if_neg hover]

/-- Witness for C4: stealing from a victim ring of 5 leaves 2 and grabs 3. -/
theorem C4_runqsteal_half_witness :
    ((⟨1, Pstatus.Prunning, [1, 2, 3, 4, 5], none, 0⟩ : P).runq ≠ [] ∧
     (⟨1, Pstatus.Prunning, [1, 2, 3, 4, 5], none, 0⟩ : P).runq.length ≤ runqCap ∧
     (⟨0, Pstatus.Prunning, [9], none, 0⟩ : P).runq.length +
       ((⟨1, Pstatus.Prunning, [1, 2, 3, 4, 5], none, 0⟩ : P).runq.length -
         (⟨1, Pstatus.Prunning, [1, 2, 3, 4, 5], none, 0⟩ : P).runq.length / 2) ≤ runqCap) ∧
    (∃ gp pp' p2',
      runqsteal (⟨0, Pstatus.Prunning, [9], none, 0⟩ : P)
          (⟨1, Pstatus.Prunning, [1, 2, 3, 4, 5], none, 0⟩ : P) false = some (gp, pp', p2') ∧
      (⟨1, Pstatus.Prunning, [1, 2, 3, 4, 5], none, 0⟩ : P).runq.length -
        (⟨1, Pstatus.Prunning, [1, 2, 3, 4, 5], none, 0⟩ : P).runq.length / 2 =
        ((⟨1, Pstatus.Prunning, [1, 2, 3, 4, 5], none, 0⟩ : P).runq.length + 1) / 2 ∧
      p2'.runq = (⟨1, Pstatus.Prunning, [1, 2, 3, 4, 5], none, 0⟩ : P).runq.drop
        ((⟨1, Pstatus.Prunning, [1, 2, 3, 4, 5], none, 0⟩ : P).runq.length -
          (⟨1, Pstatus.Prunning, [1, 2, 3, 4, 5], none, 0⟩ : P).runq.length / 2) ∧
      p2'.runq.length = (⟨1, Pstatus.Prunning, [1, 2, 3, 4, 5], none, 0⟩ : P).runq.length / 2 ∧
      pp'.runq = (⟨0, Pstatus.Prunning, [9], none, 0⟩ : P).runq ++
        ((⟨1, Pstatus.Prunning, [1, 2, 3, 4, 5], none, 0⟩ : P).runq.take
          ((⟨1, Pstatus.Prunning, [1, 2, 3, 4, 5], none, 0⟩ : P).runq.length -
            (⟨1, Pstatus.Prunning, [1, 2, 3, 4, 5], none, 0⟩ : P).runq.length / 2)).dropLast ∧
      ((⟨1, Pstatus.Prunning, [1, 2, 3, 4, 5], none, 0⟩ : P).runq.take
        ((⟨1, Pstatus.Prunning, [1, 2, 3, 4, 5], none, 0⟩ : P).runq.length -
          (⟨1, Pstatus.Prunning, [1, 2, 3, 4, 5], none, 0⟩ : P).runq.length / 2)).getLast? = some gp ∧
      (∀ h t, runqCap / 2 < runqgrabN h t →
        runqgrabStep (⟨1, Pstatus.Prunning, [1, 2, 3, 4, 5], none, 0⟩ : P) h t false =
          GrabOutcome.retry)) :=
  ⟨⟨by decide, by decide, by decide⟩,
   C4_runqsteal_half ⟨0, Pstatus.Prunning, [9], none, 0⟩
     ⟨1, Pstatus.Prunning, [1, 2, 3, 4, 5], none, 0⟩ false (by decide) (by decide) (by decide)⟩

/-- The code's batch size is the claim's cascade of caps plus the missing
cap at the queue size itself. -/
theorem globrunqgetBatchSize_eq (s : Sched) (mx : Int) :
    globrunqgetBatchSize s mx =
      if 0 < mx then
        min (min (s.runq.length / s.gomaxprocs + 1) s.runq.length) (min mx.toNat (runqCap / 2))
      else
        min (min (s.runq.length / s.gomaxprocs + 1) s.runq.length) (runqCap / 2) := by
  simp only [globrunqgetBatchSize, runqCap]
  split_ifs <;> omega

/-- The transfer loop of `globrunqget` moves `n` tasks from the head of the
global queue to the tail of the caller's ring, in order. -/
theorem globrunqgetLoop_spec (n : Nat) (s : Sched) (pp : P)
    (hlen : n ≤ s.runq.length) (hcap : pp.runq.length + n ≤ runqCap) :
    globrunqgetLoop n s pp =
      some ({ s with runq := s.runq.drop n }, { pp with runq := pp.runq ++ s.runq.take n }) := by
  induction n generalizing s pp with
  | zero => simp [globrunqgetLoop]
  | succ n ih =>
    cases hr : s.runq with
    | nil => rw [hr] at hlen; simp at hlen
    | cons g rest =>
      have hlt : pp.runq.length < runqCap := by
        have h1 : pp.runq.length + (n + 1) ≤ 256 := hcap
        simp only [runqCap]
        omega
      have hput : runqput { s with runq := rest } pp g false =
          some ({ s with runq := rest }, { pp with runq := pp.runq ++ [g] }) := by
        simp [runqput, runqputRing, hlt]
      have hlen' : n ≤ rest.length := by
        have := hlen
        rw [hr] at this
        simpa using this
      have hcap' : (pp.runq ++ [g]).length + n ≤ runqCap := by
        simp only [List.length_append, List.length_singleton]
        omega
      simp only [globrunqgetLoop, hr, hput]
      rw [ih { s with runq := rest } { pp with runq := pp.runq ++ [g] } hlen' hcap']
      simp

/-- C5 (amended): a pop from a non-empty global queue computes the batch
size `n = size/context_count + 1` capped at the queue size itself, at the
caller-supplied `max` when positive, and at half the ring capacity (128);
it removes `n` tasks from the head of the queue in FIFO order, transfers
`n - 1` of them into the calling context's local ring, and returns the
first. -/
theorem C5_globrunqget_batched (s : Sched) (pp : P) (mx : Int) (gp : Nat) (rest : List Nat)
    (hq : s.runq = gp :: rest)
    (_hprocs : 0 < s.gomaxprocs)
    (hcap : pp.runq.length + (globrunqgetBatchSize s mx - 1) ≤ runqCap) :
    globrunqget s pp mx =
      some (some gp, { s with runq := s.runq.drop (globrunqgetBatchSize s mx) },
            { pp with runq := pp.runq ++ (s.runq.drop 1).take (globrunqgetBatchSize s mx - 1) }) ∧
    1 ≤ globrunqgetBatchSize s mx ∧
    globrunqgetBatchSize s mx ≤ s.runq.length ∧
    globrunqgetBatchSize s mx =
      (if 0 < mx then
        min (min (s.runq.length / s.gomaxprocs + 1) s.runq.length) (min mx.toNat (runqCap / 2))
      else
        min (min (s.runq.length / s.gomaxprocs + 1) s.runq.length) (runqCap / 2)) := by
  have hbs := globrunqgetBatchSize_eq s mx
  have hlen1 : 1 ≤ s.runq.length := by rw [hq]; simp
  have h1 : 1 ≤ globrunqgetBatchSize s mx := by
    rw [hbs]
    split_ifs with hmx
    · refine le_min (le_min ?_ hlen1) (le_min ?_ ?_)
      · exact Nat.succ_le_succ (Nat.zero_le _)
      · omega
      · decide
    · refine le_min (le_min ?_ hlen1) ?_
      · exact Nat.succ_le_succ (Nat.zero_le _)
      · decide
  have hle : globrunqgetBatchSize s mx ≤ s.runq.length := by
    rw [hbs]
    split_ifs <;> exact (min_le_left _ _).trans (min_le_right _ _)
  refine ⟨?_, h1, hle, hbs⟩
  obtain ⟨m, hm⟩ : ∃ m, globrunqgetBatchSize s mx = m + 1 :=
    ⟨globrunqgetBatchSize s mx - 1, by omega⟩
  have hlen' : m ≤ rest.length := by
    rw [hq] at hle
    rw [hm] at hle
    simp at hle
    omega
  have hcap' : pp.runq.length + m ≤ runqCap := by
    rw [hm] at hcap
    simpa using hcap
  have hloop := globrunqgetLoop_spec m { s with runq := rest } pp (by simpa using hlen') hcap'
  have hne0 : ¬ (s.runq.length = 0) := by omega
  simp only [globrunqget]
  rw [if_neg hne0]
  simp only [hq, hm, Nat.add_sub_cancel]
  rw [hloop]
  simp

/-- C5 counterexample: with one context, `max = 0` and a global queue of
two tasks, the claim's batch-size formula gives `n = 2/1 + 1 = 3` (no cap
at the queue size), so the claim asserts three removals and two transfers;
the code removes only the two existing tasks and transfers one. -/
theorem C5_counterexample :
    claimBatchSizeC5 2 1 0 = 3 ∧
    globrunqget ⟨[1, 2], 1, [], 0, 0, 0, false⟩ ⟨0, Pstatus.Prunning, [], none, 0⟩ 0 =
      some (some 1, ⟨[], 1, [], 0, 0, 0, false⟩, ⟨0, Pstatus.Prunning, [2], none, 0⟩) ∧
    ([2] : List Nat).length ≠ claimBatchSizeC5 2 1 0 - 1 := by
  decide

/-- Witness for C5 on a three-task global queue with one context. -/
theorem C5_globrunqget_batched_witness :
    ((⟨[1, 2, 3], 1, [], 0, 0, 0, false⟩ : Sched).runq = 1 :: [2, 3] ∧
     0 < (⟨[1, 2, 3], 1, [], 0, 0, 0, false⟩ : Sched).gomaxprocs ∧
     (⟨0, Pstatus.Prunning, [], none, 0⟩ : P).runq.length +
       (globrunqgetBatchSize ⟨[1, 2, 3], 1, [], 0, 0, 0, false⟩ 0 - 1) ≤ runqCap) ∧
    (globrunqget ⟨[1, 2, 3], 1, [], 0, 0, 0, false⟩ ⟨0, Pstatus.Prunning, [], none, 0⟩ 0 =
      some (some 1,
        { (⟨[1, 2, 3], 1, [], 0, 0, 0, false⟩ : Sched) with
            runq := (⟨[1, 2, 3], 1, [], 0, 0, 0, false⟩ : Sched).runq.drop
              (globrunqgetBatchSize ⟨[1, 2, 3], 1, [], 0, 0, 0, false⟩ 0) },
        { (⟨0, Pstatus.Prunning, [], none, 0⟩ : P) with
            runq := (⟨0, Pstatus.Prunning, [], none, 0⟩ : P).runq ++
              ((⟨[1, 2, 3], 1, [], 0, 0, 0, false⟩ : Sched).runq.drop 1).take
                (globrunqgetBatchSize ⟨[1, 2, 3], 1, [], 0, 0, 0, false⟩ 0 - 1) }) ∧
     1 ≤ globrunqgetBatchSize ⟨[1, 2, 3], 1, [], 0, 0, 0, false⟩ 0 ∧
     globrunqgetBatchSize ⟨[1, 2, 3], 1, [], 0, 0, 0, false⟩ 0 ≤
       (⟨[1, 2, 3], 1, [], 0, 0, 0, false⟩ : Sched).runq.length ∧
     globrunqgetBatchSize ⟨[1, 2, 3], 1, [], 0, 0, 0, false⟩ 0 =
      (if (0 : Int) < 0 then
        min (min ((⟨[1, 2, 3], 1, [], 0, 0, 0, false⟩ : Sched).runq.length /
            (⟨[1, 2, 3], 1, [], 0, 0, 0, false⟩ : Sched).gomaxprocs + 1)
          (⟨[1, 2, 3], 1, [], 0, 0, 0, false⟩ : Sched).runq.length)
          (min (Int.toNat 0) (runqCap / 2))
      else
        min (min ((⟨[1, 2, 3], 1, [], 0, 0, 0, false⟩ : Sched).runq.length /
            (⟨[1, 2, 3], 1, [], 0, 0, 0, false⟩ : Sched).gomaxprocs + 1)
          (⟨[1, 2, 3], 1, [], 0, 0, 0, false⟩ : Sched).runq.length)
          (runqCap / 2))) :=
  ⟨⟨rfl, by decide, by decide⟩,
   C5_globrunqget_batched ⟨[1, 2, 3], 1, [], 0, 0, 0, false⟩ ⟨0, Pstatus.Prunning, [], none, 0⟩
     0 1 [2, 3] rfl (by decide) (by decide)⟩

/-- Each respawn cycle at a tick that is not a multiple of 61 pops the
`next` slot with an inherited time slice, leaves the scheduling tick and
the whole scheduler state (global queue included) unchanged, and refills
the `next` slot with the partner. -/
theorem respawnCycle_frozen (partner : Nat) (s : Sched) (pp : P) (x : Nat)
    (_hring : pp.runq = []) (hnext : pp.runnext = some x) (htick : pp.schedtick % 61 ≠ 0) :
    respawnCycle partner s pp = some (s, { pp with runnext := some partner }) := by
  have hsch : scheduleGetG s pp =
      some (SchedPick.fromLocal x true, s, { pp with runnext := none }) := by
    simp [scheduleGetG, htick, runqget, hnext]
  simp [respawnCycle, hsch, runqput]

/-- Iterated respawn cycles freeze the tick and never touch the scheduler
state, for any number of cycles. -/
theorem respawnCycles_frozen (n : Nat) (a b : Nat) (s : Sched) (pp : P) (x : Nat)
    (hring : pp.runq = []) (hnext : pp.runnext = some x) (htick : pp.schedtick % 61 ≠ 0) :
    ∃ pp' y, respawnCycles n a b s pp = some (s, pp') ∧
      pp'.schedtick = pp.schedtick ∧ pp'.runq = [] ∧ pp'.runnext = some y := by
  induction n generalizing a b pp x with
  | zero => exact ⟨pp, x, rfl, rfl, hring, hnext⟩
  | succ n ih =>
    have hc := respawnCycle_frozen a s pp x hring hnext htick
    obtain ⟨pp', y, hrun, ht, hr, hn⟩ := ih b a { pp with runnext := some a } a hring rfl htick
    refine ⟨pp', y, ?_, ht, hr, hn⟩
    simp only [respawnCycles, hc]
    exact hrun

/-- C6 counterexample: with tasks 1 and 2 respawning each other through the
`next` slot on a single context whose tick is frozen at 1, task 3 sits in
the global queue untouched after 61 full dispatch cycles — it is not
dispatched within 61 cycles, and the tick never reaches a multiple of
61. -/
theorem C6_counterexample :
    respawnCycles 61 1 2 ⟨[3], 1, [], 0, 0, 0, false⟩ ⟨0, Pstatus.Prunning, [], some 2, 1⟩ =
      some (⟨[3], 1, [], 0, 0, 0, false⟩, ⟨0, Pstatus.Prunning, [], some 1, 1⟩) ∧
    (1 : Nat) % 61 ≠ 0 := by
  decide

/-- C6 (amended): on every dispatch-loop invocation where the context's
scheduling tick is a multiple of 61 and the global run queue is non-empty,
one task is taken from the head of the global queue with `max = 1` before
the local ring is consulted; however `execute` advances the tick only on
dispatches that do not inherit the time slice, and a pair of tasks
perpetually respawning each other through the `next` slot yields only
inherited time slices — every such cycle preserves the tick and the entire
scheduler state, so when the frozen tick is not a multiple of 61 a task in
the global queue is not dispatched within 61 (or any number of) such
cycles. -/
theorem C6_schedule_tick61_starves (s : Sched) (pp : P) (gp : Nat) (rest : List Nat)
    (htick : pp.schedtick % 61 = 0)
    (hq : s.runq = gp :: rest)
    (_hprocs : 0 < s.gomaxprocs) :
    scheduleGetG s pp = some (SchedPick.fromGlobal gp, { s with runq := rest }, pp) ∧
    (∀ n a b s2 pp2 x, pp2.runq = [] → pp2.runnext = some x → pp2.schedtick % 61 ≠ 0 →
      ∃ pp3 y, respawnCycles n a b s2 pp2 = some (s2, pp3) ∧
        pp3.schedtick = pp2.schedtick ∧ pp3.runq = [] ∧ pp3.runnext = some y) := by
  have hlen1 : 1 ≤ s.runq.length := by rw [hq]; simp
  have hbs1 : globrunqgetBatchSize s 1 = 1 := by
    rw [globrunqgetBatchSize_eq]
    rw [if_pos (by norm_num)]
    have htn : (1 : Int).toNat = 1 := rfl
    rw [htn]
    have hm1 : min 1 (runqCap / 2) = 1 := by decide
    rw [hm1]
    exact min_eq_right (le_min (Nat.succ_le_succ (Nat.zero_le _)) hlen1)
  have hglob : globrunqget s pp 1 = some (some gp, { s with runq := rest }, pp) := by
    have hne0 : ¬ (s.runq.length = 0) := by omega
    simp only [globrunqget]
    rw [if_neg hne0]
    simp only [hq, hbs1]
    simp [globrunqgetLoop]
  constructor
  · have hcond : pp.schedtick % 61 = 0 ∧ s.runq.length > 0 := ⟨htick, by omega⟩
    simp only [scheduleGetG]
    rw [if_pos hcond, hglob]
  · intro n a b s2 pp2 x hring hnext htick2
    exact respawnCycles_frozen n a b s2 pp2 x hring hnext htick2

/-- Witness for C6: tick 0 takes the global head even past a non-empty
ring and `next` slot; and the frozen-respawn conclusion at a concrete
instance. -/
theorem C6_schedule_tick61_starves_witness :
    ((⟨0, Pstatus.Prunning, [7], some 8, 0⟩ : P).schedtick % 61 = 0 ∧
     (⟨[5], 1, [], 0, 0, 0, false⟩ : Sched).runq = 5 :: [] ∧
     0 < (⟨[5], 1, [], 0, 0, 0, false⟩ : Sched).gomaxprocs) ∧
    (scheduleGetG ⟨[5], 1, [], 0, 0, 0, false⟩ ⟨0, Pstatus.Prunning, [7], some 8, 0⟩ =
      some (SchedPick.fromGlobal 5,
        { (⟨[5], 1, [], 0, 0, 0, false⟩ : Sched) with runq := [] },
        ⟨0, Pstatus.Prunning, [7], some 8, 0⟩) ∧
     (∀ n a b s2 pp2 x, pp2.runq = [] → pp2.runnext = some x → pp2.schedtick % 61 ≠ 0 →
       ∃ pp3 y, respawnCycles n a b s2 pp2 = some (s2, pp3) ∧
         pp3.schedtick = pp2.schedtick ∧ pp3.runq = [] ∧ pp3.runnext = some y)) :=
  ⟨⟨rfl, rfl, by decide⟩,
   C6_schedule_tick61_starves ⟨[5], 1, [], 0, 0, 0, false⟩ ⟨0, Pstatus.Prunning, [7], some 8, 0⟩
     5 [] rfl rfl (by decide)⟩

/-- Under the ring-capacity invariant, the ring insertion succeeds and
touches no scheduler field other than the global queue. -/
theorem runqputRing_fields (s : Sched) (pp : P) (g : Nat)
    (hcap : pp.runq.length ≤ runqCap) :
    ∃ s' pp', runqputRing s pp g = some (s', pp') ∧
      s'.gomaxprocs = s.gomaxprocs ∧ s'.pidle = s.pidle ∧ s'.npidle = s.npidle ∧
      s'.nmspinning = s.nmspinning ∧ s'.stopwait = s.stopwait ∧ s'.gcwaiting = s.gcwaiting := by
  by_cases hlt : pp.runq.length < runqCap
  · exact ⟨s, { pp with runq := pp.runq ++ [g] }, by simp [runqputRing, hlt],
      rfl, rfl, rfl, rfl, rfl, rfl⟩
  · have hfull : pp.runq.length = runqCap := by omega
    have h2 : pp.runq.length / 2 = runqCap / 2 := by rw [hfull]
    refine ⟨{ s with runq := s.runq ++ (pp.runq.take (pp.runq.length / 2) ++ [g]) },
      { pp with runq := pp.runq.drop (pp.runq.length / 2) }, ?_, rfl, rfl, rfl, rfl, rfl, rfl⟩
    simp [runqputRing, hlt, runqputslow, h2]

/-- Under the ring-capacity invariant, `runqput` succeeds and touches no
scheduler field other than the global queue. -/
theorem runqput_fields (s : Sched) (pp : P) (g : Nat) (next : Bool)
    (hcap : pp.runq.length ≤ runqCap) :
    ∃ s' pp', runqput s pp g next = some (s', pp') ∧
      s'.gomaxprocs = s.gomaxprocs ∧ s'.pidle = s.pidle ∧ s'.npidle = s.npidle ∧
      s'.nmspinning = s.nmspinning ∧ s'.stopwait = s.stopwait ∧ s'.gcwaiting = s.gcwaiting := by
  cases next with
  | false =>
    obtain ⟨s', pp', h, h1, h2, h3, h4, h5, h6⟩ := runqputRing_fields s pp g hcap
    exact ⟨s', pp', by simpa [runqput] using h, h1, h2, h3, h4, h5, h6⟩
  | true =>
    cases hnx : pp.runnext with
    | none => exact ⟨s, { pp with runnext := some g }, by simp [runqput, hnx],
        rfl, rfl, rfl, rfl, rfl, rfl⟩
    | some old =>
      obtain ⟨s', pp', h, h1, h2, h3, h4, h5, h6⟩ :=
        runqputRing_fields s { pp with runnext := some g } old hcap
      exact ⟨s', pp', by simpa [runqput, hnx] using h, h1, h2, h3, h4, h5, h6⟩

/-- C1: `ready` moves the task `Gwaiting → Grunnable` and pushes it on the
current worker's context; when the idle-context count is positive and the
spinning count is zero, `wakep` CASes the spinning count from 0 to 1 and
exactly one worker is started with the spinning flag set; `wakep` on a
non-zero spinning count does nothing (at most one concurrent readier
wakes); and afterwards either some worker is spinning or the idle-context
count is zero. -/
theorem C1_ready_wake_rule (s : Sched) (pp : P) (gp : G) (next : Bool)
    (hw : gp.status = Gstatus.Gwaiting)
    (hinv : s.npidle = s.pidle.length)
    (hcap : pp.runq.length ≤ runqCap) :
    ∃ s' pp' gp' evs,
      ready s pp gp next = some (s', pp', gp', evs) ∧
      gp'.status = Gstatus.Grunnable ∧
      (0 < s.npidle ∧ s.nmspinning = 0 →
        (∃ pid, evs = [Event.startmEv pid true]) ∧ s'.nmspinning = 1) ∧
      (¬ (0 < s.npidle ∧ s.nmspinning = 0) →
        evs = [] ∧ s'.nmspinning = s.nmspinning ∧ s'.npidle = s.npidle) ∧
      (0 < s'.nmspinning ∨ s'.npidle = 0) ∧
      (∀ s1 : Sched, s1.nmspinning ≠ 0 → wakep s1 = (s1, [])) := by
  obtain ⟨s1, pp1, hput, hgm, hpl, hnp, hns, hsw, hgc⟩ := runqput_fields s pp gp.id next hcap
  have hwk : ∀ s2 : Sched, s2.nmspinning ≠ 0 → wakep s2 = (s2, []) := by
    intro s2 h
    simp [wakep, h]
  by_cases hc : 0 < s.npidle ∧ s.nmspinning = 0
  · cases hpid : s.pidle with
    | nil =>
      exfalso
      rw [hpid] at hinv
      simp at hinv
      omega
    | cons q qs =>
      have hne' : s.npidle ≠ 0 := by omega
      refine ⟨{ s1 with nmspinning := 1, pidle := qs, npidle := s1.npidle - 1 }, pp1,
        { gp with status := Gstatus.Grunnable }, [Event.startmEv q.id true],
        ?_, rfl, ?_, ?_, ?_, hwk⟩
      · simp [ready, hput, wakep, startm, pidleget, hpl, hpid, hnp, hns, hc.2, hw, hne']
      · intro _
        exact ⟨⟨q.id, rfl⟩, rfl⟩
      · intro h
        exact absurd hc h
      · exact Or.inl Nat.one_pos
  · have hcond' : ¬ (s1.npidle ≠ 0 ∧ s1.nmspinning = 0) := by
      rw [hnp, hns]
      intro h
      exact hc ⟨Nat.pos_of_ne_zero h.1, h.2⟩
    refine ⟨s1, pp1, { gp with status := Gstatus.Grunnable }, [],
      ?_, rfl, ?_, ?_, ?_, hwk⟩
    · simp [ready, hput, hw, hcond']
    · intro h
      exact absurd h hc
    · intro _
      exact ⟨rfl, hns, hnp⟩
    · rw [hns, hnp]
      omega

/-- Witness for C1: one idle context, no spinner; readying wakes exactly one
spinning worker. -/
theorem C1_ready_wake_rule_witness :
    ((⟨42, Gstatus.Gwaiting⟩ : G).status = Gstatus.Gwaiting ∧
     (⟨[], 1, [⟨2, Pstatus.Pidle, [], none, 0⟩], 1, 0, 0, false⟩ : Sched).npidle =
       (⟨[], 1, [⟨2, Pstatus.Pidle, [], none, 0⟩], 1, 0, 0, false⟩ : Sched).pidle.length ∧
     (⟨0, Pstatus.Prunning, [], none, 0⟩ : P).runq.length ≤ runqCap) ∧
    (∃ s' pp' gp' evs,
      ready ⟨[], 1, [⟨2, Pstatus.Pidle, [], none, 0⟩], 1, 0, 0, false⟩
          ⟨0, Pstatus.Prunning, [], none, 0⟩ ⟨42, Gstatus.Gwaiting⟩ true =
        some (s', pp', gp', evs) ∧
      gp'.status = Gstatus.Grunnable ∧
      (0 < (⟨[], 1, [⟨2, Pstatus.Pidle, [], none, 0⟩], 1, 0, 0, false⟩ : Sched).npidle ∧
       (⟨[], 1, [⟨2, Pstatus.Pidle, [], none, 0⟩], 1, 0, 0, false⟩ : Sched).nmspinning = 0 →
        (∃ pid, evs = [Event.startmEv pid true]) ∧ s'.nmspinning = 1) ∧
      (¬ (0 < (⟨[], 1, [⟨2, Pstatus.Pidle, [], none, 0⟩], 1, 0, 0, false⟩ : Sched).npidle ∧
          (⟨[], 1, [⟨2, Pstatus.Pidle, [], none, 0⟩], 1, 0, 0, false⟩ : Sched).nmspinning = 0) →
        evs = [] ∧
        s'.nmspinning = (⟨[], 1, [⟨2, Pstatus.Pidle, [], none, 0⟩], 1, 0, 0, false⟩ : Sched).nmspinning ∧
        s'.npidle = (⟨[], 1, [⟨2, Pstatus.Pidle, [], none, 0⟩], 1, 0, 0, false⟩ : Sched).npidle) ∧
      (0 < s'.nmspinning ∨ s'.npidle = 0) ∧
      (∀ s1 : Sched, s1.nmspinning ≠ 0 → wakep s1 = (s1, []))) :=
  ⟨⟨rfl, rfl, by decide⟩,
   C1_ready_wake_rule ⟨[], 1, [⟨2, Pstatus.Pidle, [], none, 0⟩], 1, 0, 0, false⟩
     ⟨0, Pstatus.Prunning, [], none, 0⟩ ⟨42, Gstatus.Gwaiting⟩ true rfl rfl (by decide)⟩

/-- C2: on syscall exit the fallbacks happen in order — (1) CAS the original
context `Psyscall → Prunning`; (2) else take a context from the idle list;
(3) else the slow path on the scheduler stack moves the task
`Gsyscall → Grunnable` and, with no idle context available there either,
appends it to the global run queue and parks the worker. -/
theorem C2_exitsyscall_fallback (s : Sched) (m : M) (gp : G)
    (hg : gp.status = Gstatus.Gsyscall)
    (hfreeze : s.stopwait ≠ freezeStopWait) :
    (∀ pp, m.p = some pp → pp.status = Pstatus.Psyscall →
      exitsyscall s m gp =
        some (s, { m with p := some { pp with status := Pstatus.Prunning } },
              { gp with status := Gstatus.Grunning }, ExitPath.fastReacquired)) ∧
    ((∀ pp, m.p = some pp → pp.status ≠ Pstatus.Psyscall) →
      ∀ q qs, s.pidle = q :: qs →
        exitsyscall s m gp =
          some ({ s with pidle := qs, npidle := s.npidle - 1 },
                { m with p := some { q with status := Pstatus.Prunning } },
                { gp with status := Gstatus.Grunning }, ExitPath.fastPidle)) ∧
    ((∀ pp, m.p = some pp → pp.status ≠ Pstatus.Psyscall) → s.pidle = [] →
      exitsyscall s m gp =
        some ({ s with runq := s.runq ++ [gp.id] },
              { m with p := none, parked := true },
              { gp with status := Gstatus.Grunnable }, ExitPath.slowGlobalPark)) := by
  refine ⟨?_, ?_, ?_⟩
  · intro pp hmp hst
    simp [exitsyscall, exitsyscallfast, hg, hfreeze, hmp, hst]
  · intro hnone q qs hpid
    cases hmp : m.p with
    | none =>
      simp [exitsyscall, exitsyscallfast, exitsyscallfastPidle, pidleget, hg, hfreeze, hmp, hpid]
    | some pp =>
      have hst := hnone pp hmp
      simp [exitsyscall, exitsyscallfast, exitsyscallfastPidle, pidleget, hg, hfreeze, hmp,
            hst, hpid]
  · intro hnone hpid
    cases hmp : m.p with
    | none =>
      simp [exitsyscall, exitsyscallfast, exitsyscallfastPidle, exitsyscall0, pidleget, hg,
            hfreeze, hmp, hpid]
    | some pp =>
      have hst := hnone pp hmp
      simp [exitsyscall, exitsyscallfast, exitsyscallfastPidle, exitsyscall0, pidleget, hg,
            hfreeze, hmp, hst, hpid]

/-- Witness for C2 with a worker still holding its syscall context. -/
theorem C2_exitsyscall_fallback_witness :
    ((⟨10, Gstatus.Gsyscall⟩ : G).status = Gstatus.Gsyscall ∧
     (⟨[], 1, [], 0, 0, 0, false⟩ : Sched).stopwait ≠ freezeStopWait) ∧
    ((∀ pp, (⟨some ⟨1, Pstatus.Psyscall, [], none, 0⟩, false, false⟩ : M).p = some pp →
        pp.status = Pstatus.Psyscall →
      exitsyscall ⟨[], 1, [], 0, 0, 0, false⟩ ⟨some ⟨1, Pstatus.Psyscall, [], none, 0⟩, false, false⟩
          ⟨10, Gstatus.Gsyscall⟩ =
        some (⟨[], 1, [], 0, 0, 0, false⟩,
              { (⟨some ⟨1, Pstatus.Psyscall, [], none, 0⟩, false, false⟩ : M) with
                  p := some { pp with status := Pstatus.Prunning } },
              { (⟨10, Gstatus.Gsyscall⟩ : G) with status := Gstatus.Grunning },
              ExitPath.fastReacquired)) ∧
     ((∀ pp, (⟨some ⟨1, Pstatus.Psyscall, [], none, 0⟩, false, false⟩ : M).p = some pp →
         pp.status ≠ Pstatus.Psyscall) →
      ∀ q qs, (⟨[], 1, [], 0, 0, 0, false⟩ : Sched).pidle = q :: qs →
        exitsyscall ⟨[], 1, [], 0, 0, 0, false⟩
            ⟨some ⟨1, Pstatus.Psyscall, [], none, 0⟩, false, false⟩ ⟨10, Gstatus.Gsyscall⟩ =
          some ({ (⟨[], 1, [], 0, 0, 0, false⟩ : Sched) with
                    pidle := qs, npidle := (⟨[], 1, [], 0, 0, 0, false⟩ : Sched).npidle - 1 },
                { (⟨some ⟨1, Pstatus.Psyscall, [], none, 0⟩, false, false⟩ : M) with
                    p := some { q with status := Pstatus.Prunning } },
                { (⟨10, Gstatus.Gsyscall⟩ : G) with status := Gstatus.Grunning },
                ExitPath.fastPidle)) ∧
     ((∀ pp, (⟨some ⟨1, Pstatus.Psyscall, [], none, 0⟩, false, false⟩ : M).p = some pp →
         pp.status ≠ Pstatus.Psyscall) → (⟨[], 1, [], 0, 0, 0, false⟩ : Sched).pidle = [] →
        exitsyscall ⟨[], 1, [], 0, 0, 0, false⟩
            ⟨some ⟨1, Pstatus.Psyscall, [], none, 0⟩, false, false⟩ ⟨10, Gstatus.Gsyscall⟩ =
          some ({ (⟨[], 1, [], 0, 0, 0, false⟩ : Sched) with
                    runq := (⟨[], 1, [], 0, 0, 0, false⟩ : Sched).runq ++
                      [(⟨10, Gstatus.Gsyscall⟩ : G).id] },
                { (⟨some ⟨1, Pstatus.Psyscall, [], none, 0⟩, false, false⟩ : M) with
                    p := none, parked := true },
                { (⟨10, Gstatus.Gsyscall⟩ : G) with status := Gstatus.Grunnable },
                ExitPath.slowGlobalPark))) :=
  ⟨⟨rfl, by decide⟩,
   C2_exitsyscall_fallback ⟨[], 1, [], 0, 0, 0, false⟩
     ⟨some ⟨1, Pstatus.Psyscall, [], none, 0⟩, false, false⟩ ⟨10, Gstatus.Gsyscall⟩
     rfl (by decide)⟩

/-- Draining the idle list does not touch the preempt-call counter. -/
theorem stwStopIdle_calls (x : StwS) : (stwStopIdle x).preemptallCalls = x.preemptallCalls := rfl

/-- Retaking syscall contexts does not touch the preempt-call counter. -/
theorem stwRetakeSyscall_calls (x : StwS) :
    (stwRetakeSyscall x).preemptallCalls = x.preemptallCalls := rfl

/-- Each `preemptall` bumps the call counter by exactly one. -/
theorem preemptall_calls (x : StwS) : (preemptall x).preemptallCalls = x.preemptallCalls + 1 := rfl

/-- The stop-the-world wait loop returns only once `stopwait` has reached
zero, and performs exactly one `preemptall` per unsignalled 100 microsecond
interval. -/
theorem stwWaitLoop_spec (fuel : Nat) (vol : Nat → List Nat) (s : StwS) (s' : StwS) (k : Nat)
    (h : stwWaitLoop fuel vol s = some (s', k)) :
    s'.stopwait = 0 ∧ s'.preemptallCalls = s.preemptallCalls + k := by
  induction fuel generalizing vol s k with
  | zero => simp [stwWaitLoop] at h
  | succ fuel ih =>
    simp only [stwWaitLoop] at h
    split at h
    · rw [Option.some.injEq, Prod.mk.injEq] at h
      obtain ⟨h1, h2⟩ := h
      subst h1
      subst h2
      exact ⟨by assumption, rfl⟩
    · split at h
      · exact absurd h (by simp)
      · rename_i s2 k2 heq
        rw [Option.some.injEq, Prod.mk.injEq] at h
        obtain ⟨h1, h2⟩ := h
        subst h1
        subst h2
        obtain ⟨ha, hb⟩ := ih _ _ _ heq
        refine ⟨ha, ?_⟩
        rw [hb, preemptall_calls]
        show s.preemptallCalls + 1 + k2 = s.preemptallCalls + (k2 + 1)
        omega


/-- The sanity checks pass only a state with `stopwait = 0` and every
context stopped. -/
theorem stwSanity_spec (r : Option (StwS × Nat)) (s' : StwS) (k : Nat)
    (h : stwSanity r = some (s', k)) :
    r = some (s', k) ∧ s'.stopwait = 0 ∧ ∀ pp ∈ s'.allp, pp.status = Pstatus.Pgcstop := by
  cases r with
  | none => exact absurd h (by simp [stwSanity])
  | some r6 =>
    obtain ⟨s6, k6⟩ := r6
    simp only [stwSanity] at h
    split at h
    · exact absurd h (by simp)
    · split at h
      · exact absurd h (by simp)
      · rename_i hsw hany
        rw [Option.some.injEq, Prod.mk.injEq] at h
        obtain ⟨h1, h2⟩ := h
        subst h1
        subst h2
        refine ⟨rfl, by omega, ?_⟩
        intro pp hpp
        by_contra hne
        exact hany (List.any_eq_true.mpr ⟨pp, hpp, by simpa using hne⟩)

/-- Through the (possibly skipped) wait, the preempt-call counter has grown
by exactly the number of unsignalled intervals, and the loop only exits
with `stopwait = 0` or because no wait was needed. -/
theorem stwWaitIf_spec (fuel : Nat) (vol : Nat → List Nat) (s5 : StwS) (s' : StwS) (k : Nat)
    (h : (if s5.stopwait > 0 then stwWaitLoop fuel vol s5 else some (s5, 0)) = some (s', k)) :
    s'.preemptallCalls = s5.preemptallCalls + k := by
  split at h
  · exact (stwWaitLoop_spec _ _ _ _ _ h).2
  · rw [Option.some.injEq, Prod.mk.injEq] at h
    obtain ⟨h1, h2⟩ := h
    subst h1
    subst h2
    rfl

/-- C3: when `stopTheWorldWithSema` returns, `stopwait` is zero and every
context is in `Pgcstop` — in particular none is `Prunning`, so no worker is
executing a task — and the stopper has issued exactly one `preemptall` per
100 microsecond wait interval on top of the initial one. -/
theorem C3_stw_postcondition (fuel : Nat) (vol : Nat → List Nat) (s : StwS) (cur : Nat)
    (s' : StwS) (k : Nat)
    (h : stopTheWorldWithSema fuel vol s cur = some (s', k)) :
    s'.stopwait = 0 ∧
    (∀ pp ∈ s'.allp, pp.status = Pstatus.Pgcstop) ∧
    (∀ pp ∈ s'.allp, pp.status ≠ Pstatus.Prunning) ∧
    s'.preemptallCalls = s.preemptallCalls + 1 + k := by
  simp only [stopTheWorldWithSema] at h
  obtain ⟨hr, h3, h4⟩ := stwSanity_spec _ _ _ h
  have h5 := stwWaitIf_spec fuel vol _ _ _ hr
  refine ⟨h3, h4, ?_, ?_⟩
  · intro pp hpp hrun
    have hst := h4 pp hpp
    rw [hrun] at hst
    exact absurd hst (by decide)
  · rw [h5]
    rfl

/-- Witness for C3: one syscall context and one running stopper; the stop
completes without waiting. -/
theorem C3_stw_postcondition_witness :
    stopTheWorldWithSema 0 noVolunteers
        ⟨false, 0, [⟨Pstatus.Psyscall, false⟩, ⟨Pstatus.Prunning, false⟩], [], 0⟩ 1 =
      some (⟨true, 0, [⟨Pstatus.Pgcstop, false⟩, ⟨Pstatus.Pgcstop, true⟩], [], 1⟩, 0) ∧
    ((⟨true, 0, [⟨Pstatus.Pgcstop, false⟩, ⟨Pstatus.Pgcstop, true⟩], [], 1⟩ : StwS).stopwait = 0 ∧
     (∀ pp ∈ (⟨true, 0, [⟨Pstatus.Pgcstop, false⟩, ⟨Pstatus.Pgcstop, true⟩], [], 1⟩ : StwS).allp,
        pp.status = Pstatus.Pgcstop) ∧
     (∀ pp ∈ (⟨true, 0, [⟨Pstatus.Pgcstop, false⟩, ⟨Pstatus.Pgcstop, true⟩], [], 1⟩ : StwS).allp,
        pp.status ≠ Pstatus.Prunning) ∧
     (⟨true, 0, [⟨Pstatus.Pgcstop, false⟩, ⟨Pstatus.Pgcstop, true⟩], [], 1⟩ : StwS).preemptallCalls =
       (⟨false, 0, [⟨Pstatus.Psyscall, false⟩, ⟨Pstatus.Prunning, false⟩], [], 0⟩ :
         StwS).preemptallCalls + 1 + 0) :=
  ⟨by decide,
   C3_stw_postcondition 0 noVolunteers
     ⟨false, 0, [⟨Pstatus.Psyscall, false⟩, ⟨Pstatus.Prunning, false⟩], [], 0⟩ 1
     ⟨true, 0, [⟨Pstatus.Pgcstop, false⟩, ⟨Pstatus.Pgcstop, true⟩], [], 1⟩ 0 (by decide)⟩
